import Mathlib

/-!
A shallow embedding, over the rational numbers, of the procedural audio
engine found in src/components/PostSovietTrainView.tsx and its revised
copy src/unnamed/part_000 of the SOVIETSKAYA-ZHELEZNAYA-DOROGA
repository, together with proofs about the radio tuning model, the
generative music sequencer, the speed-coupled rhythm generator and the
weather-driven rain bus.

JavaScript number arithmetic on the small decimal constants involved is
modelled exactly by rational arithmetic.  Every call to Math.random()
is turned into an explicit draw parameter (a rational in [0, 1)), so
each formerly stochastic computation becomes a pure function of its
inputs and its draws.  Web Audio parameter writes are reified as
ParamEvent and GainEvent values: gain.gain.value = x becomes setValue x,
while setTargetAtTime and the two ramp calls keep their names and
arguments.  Where the two copies of the component differ (the rhythm
generator and the rain-gain effect), the revised copy
src/unnamed/part_000 is embedded; the differences are noted in the
doc comments of the affected definitions.
-/

namespace SovietRail

/-- Weather values, from the Weather union type in src/App.tsx. -/
inductive Weather where
  | clear
  | cloudy
  | rain
  | snow
deriving DecidableEq

/-- A control-parameter write on an AudioParam: either a direct value
assignment (param.value = v) or a smoothed exponential-approach
automation (param.setTargetAtTime target startTime timeConstant). -/
inductive ParamEvent where
  | setValue (v : ℚ)
  | setTargetAtTime (target startTime timeConstant : ℚ)
deriving DecidableEq

/-- Rain-bus gain target per weather, from the weather effect of
src/unnamed/part_000 line 331: 0.35 for rain, 0.05 for snow, 0
otherwise.  (The older copy in PostSovietTrainView.tsx line 342 has no
snow case and a 0.5 s time constant; the revised copy is embedded.) -/
def rainGainTarget (w : Weather) : ℚ :=
  if w = Weather.rain then 0.35 else if w = Weather.snow then 0.05 else 0

/-- The parameter write the weather effect performs on the rain-bus
gain node: setTargetAtTime with a 1.5 s time constant
(src/unnamed/part_000 line 332). -/
def rainGainUpdate (w : Weather) (now : ℚ) : ParamEvent :=
  ParamEvent.setTargetAtTime (rainGainTarget w) now 1.5

/-- Math.abs on rationals, written out so that it evaluates by kernel
reduction. -/
def rAbs (x : ℚ) : ℚ := if x < 0 then -x else x

/-- Math.min on rationals, written out so that it evaluates by kernel
reduction. -/
def rMin (a b : ℚ) : ℚ := if a ≤ b then a else b

/-- Math.max on rationals, written out so that it evaluates by kernel
reduction. -/
def rMax (a b : ℚ) : ℚ := if a ≤ b then b else a

/-- Station classification carried in the station table.  The tuning
math never reads this field. -/
inductive StationType where
  | music
  | buzzer
deriving DecidableEq

/-- One entry of the station table inside the tuning effect
(PostSovietTrainView.tsx lines 293-296, part_000 lines 287-290). -/
structure Station where
  freq : ℚ
  stype : StationType
  bandwidth : ℚ
deriving DecidableEq

/-- The fixed two-entry station table. -/
def stations : List Station :=
  [⟨96.0, StationType.music, 0.8⟩, ⟨104.5, StationType.buzzer, 0.4⟩]

/-- The stations.forEach loop searching for the station with the
smallest absolute distance to the dial frequency; the accumulator
starts at (bestStationDiff = 100, closestStation = null)
(PostSovietTrainView.tsx lines 298-307). -/
def findClosest (radioFreq : ℚ) : ℚ × Option Station :=
  stations.foldl
    (fun acc s =>
      let diff := rAbs (radioFreq - s.freq)
      if diff < acc.1 then (diff, some s) else acc)
    (100, none)

/-- The signalQuality computation (PostSovietTrainView.tsx lines
309-319): 0 unless a station was found within 1.5 MHz, otherwise the
clamped linear fade 1 - diff/1.5, halved when the signal is weak
(quality below 0.8) and the dropout draw Math.random() exceeds 0.9. -/
def signalQuality (radioFreq dropoutDraw : ℚ) : ℚ :=
  let best := findClosest radioFreq
  if best.2.isSome = true ∧ best.1 < 1.5 then
    let q := rMax 0 (1 - best.1 / 1.5)
    if q < 0.8 ∧ dropoutDraw > 0.9 then q * 0.5 else q
  else 0

/-- staticVol = (1 - signalQuality) * 0.4 + 0.05
(PostSovietTrainView.tsx line 322). -/
def staticVol (radioFreq dropoutDraw : ℚ) : ℚ :=
  (1 - signalQuality radioFreq dropoutDraw) * 0.4 + 0.05

/-- musicVol = signalQuality (PostSovietTrainView.tsx line 323). -/
def musicVol (radioFreq dropoutDraw : ℚ) : ℚ :=
  signalQuality radioFreq dropoutDraw

/-- Radio bandpass-filter automation target: 1000 Hz plus a drift of
bestStationDiff * 500 whose sign is drawn at random
(PostSovietTrainView.tsx lines 331-332). -/
def filterTarget (radioFreq signDraw : ℚ) : ℚ :=
  let drift := (findClosest radioFreq).1 * 500 * (if signDraw > 0.5 then 1 else -1)
  1000 + drift

/-- The four derived outputs of one tuning recomputation. -/
structure TuningResult where
  quality : ℚ
  staticV : ℚ
  musicV : ℚ
  filterT : ℚ
deriving DecidableEq

/-- One tuning recomputation: everything the radioFreq effect derives
from the dial frequency and its two random draws. -/
def tune (radioFreq dropoutDraw signDraw : ℚ) : TuningResult :=
  ⟨signalQuality radioFreq dropoutDraw,
   staticVol radioFreq dropoutDraw,
   musicVol radioFreq dropoutDraw,
   filterTarget radioFreq signDraw⟩

/-- Distance from the dial frequency to the nearer of the two station
frequencies. -/
def nearestDist (f : ℚ) : ℚ :=
  rMin (rAbs (f - 96.0)) (rAbs (f - 104.5))

/-- signalQuality viewed as a function of the distance to the nearest
station (proved below to agree with signalQuality at every dial
frequency). -/
def qualityAtDist (d dropoutDraw : ℚ) : ℚ :=
  if d < 1.5 then
    if rMax 0 (1 - d / 1.5) < 0.8 ∧ dropoutDraw > 0.9 then
      rMax 0 (1 - d / 1.5) * 0.5
    else
      rMax 0 (1 - d / 1.5)
  else 0

/-- One scheduled write on a voice gain AudioParam. -/
inductive GainEvent where
  | setValue (v : ℚ)
  | setValueAtTime (v t : ℚ)
  | linearRampToValueAtTime (v t : ℚ)
  | exponentialRampToValueAtTime (v t : ℚ)
deriving DecidableEq

/-- One ephemeral voice: its start time, the scheduled writes on its
gain parameter in program order, and the scheduled stop time of its
source (none when the source is started without a stop call). -/
structure Voice where
  startTime : ℚ
  envelope : List GainEvent
  stopTime : Option ℚ
deriving DecidableEq

/-- The playNote voice used for bass and melody
(PostSovietTrainView.tsx lines 382-415): gain set to 0 at t, linear
ramp to vol at t + 0.05, exponential ramp to 0.001 at t + dur, source
stopped at t + dur + 0.1. -/
def playNote (t dur vol : ℚ) : Voice :=
  ⟨t,
   [GainEvent.setValueAtTime 0 t,
    GainEvent.linearRampToValueAtTime vol (t + 0.05),
    GainEvent.exponentialRampToValueAtTime 0.001 (t + dur)],
   some (t + dur + 0.1)⟩

/-- The kick-drum voice built inline in the sequencer tick
(PostSovietTrainView.tsx lines 463-472): gain set to 0.4 at t, then an
exponential ramp to 0.01 at t + 0.5; the oscillator stops at t + 0.5. -/
def kickVoice (t : ℚ) : Voice :=
  ⟨t,
   [GainEvent.setValueAtTime 0.4 t,
    GainEvent.exponentialRampToValueAtTime 0.01 (t + 0.5)],
   some (t + 0.5)⟩

/-- The playNoise voice used for snare and hi-hat
(PostSovietTrainView.tsx lines 417-438): a constant gain of 0.15
written directly (gain.gain.value = 0.15), no ramps, and the source is
started with no stop call (the non-looped buffer of length dur simply
ends). -/
def playNoise (t dur : ℚ) : Voice :=
  ⟨t, [GainEvent.setValue 0.15], none⟩

/-- The createHit voice of the rhythm generator
(PostSovietTrainView.tsx lines 526-549): gain 0 at time, linear ramp to
vol at time + 0.01, exponential ramp to 0.01 at time + 0.1, source
stopped at time + 0.15. -/
def createHit (time vol : ℚ) : Voice :=
  ⟨time,
   [GainEvent.setValueAtTime 0 time,
    GainEvent.linearRampToValueAtTime vol (time + 0.01),
    GainEvent.exponentialRampToValueAtTime 0.01 (time + 0.1)],
   some (time + 0.15)⟩

/-- Whether the first scheduled gain write of a voice sets the value 0. -/
def startsAtZero (v : Voice) : Bool :=
  match v.envelope.head? with
  | some (GainEvent.setValueAtTime x _) => x == 0
  | _ => false

/-- The value carried by a gain write. -/
def eventValue : GainEvent → ℚ
  | GainEvent.setValue v => v
  | GainEvent.setValueAtTime v _ => v
  | GainEvent.linearRampToValueAtTime v _ => v
  | GainEvent.exponentialRampToValueAtTime v _ => v

/-- Whether every scheduled gain value of a voice is non-negative. -/
def nonnegTargets (v : Voice) : Bool :=
  v.envelope.all (fun e => decide (0 ≤ eventValue e))

/-- Whether the envelope ends with an exponential release toward a
strictly positive floor, completing strictly before the scheduled
source stop. -/
def releaseBeforeStop (v : Voice) : Bool :=
  match v.envelope.getLast?, v.stopTime with
  | some (GainEvent.exponentialRampToValueAtTime vf tf), some ts =>
      decide (0 < vf) && decide (tf < ts)
  | _, _ => false

/-- The envelope discipline claimed for every voice: starts at 0, holds
non-negative targets, and releases toward (never exactly to) 0 before
the source stops. -/
def goodEnvelope (v : Voice) : Bool :=
  startsAtZero v && nonnegTargets v && releaseBeforeStop v

/-- Result of one firing of the rhythm-generator callback: the hit
voices it emitted and the delay (in milliseconds) of the setTimeout it
installed for its next firing, none when it returned without
rescheduling. -/
structure ClackResult where
  hits : List Voice
  next : Option ℚ
deriving DecidableEq

/-- One firing of playClack from src/unnamed/part_000 lines 453-495.
running is the guard "ctx and master exist and ctx.state is running";
speed is currentSpeedRef.current; jitterDraw is the Math.random() value
of the next-delay jitter; t is ctx.currentTime.  When suspended the
callback returns at once (no reschedule).  When speed / 60 is below
0.1 it emits nothing and polls again in 1000 ms.  Otherwise it emits
two hits 0.14 / speedRatio seconds apart, loudness-scaled by speed,
and reschedules itself after 1600 / speedRatio + jitter * 200 ms.
(The older copy in PostSovietTrainView.tsx lines 520-555 has no speed
coupling; the revised copy is embedded.) -/
def playClack (running : Bool) (speed jitterDraw t : ℚ) : ClackResult :=
  if running = false then ⟨[], none⟩
  else
    let sr := speed / 60
    if sr < 0.1 then ⟨[], some 1000⟩
    else
      let volScale := rMin 1 (0.2 + sr * 0.3)
      ⟨[createHit t (0.4 * volScale),
        createHit (t + 0.14 / sr) (0.3 * volScale)],
       some (1600 / sr + jitterDraw * 200)⟩

/-- The offset in seconds between the two hits of a firing pair, when
exactly two hits were emitted. -/
def clackOffset (r : ClackResult) : Option ℚ :=
  match r.hits with
  | [h1, h2] => some (h2.startTime - h1.startTime)
  | _ => none

/-- Sequencer tick period in seconds (100 BPM approx). -/
def beatTime : ℚ := 0.6

/-- The fixed 7-note A-minor scale of the melody generator. -/
def scale : List ℚ := [220.00, 246.94, 261.63, 293.66, 329.63, 349.23, 392.00]

/-- The fixed 4-note bass chord progression (A1, F1, C2, G1). -/
def bassProgression : List ℚ := [55.00, 43.65, 65.41, 49.00]

/-- The sole mutable state of the music sequencer: the closure
variables step and bar. -/
structure SeqState where
  step : ℕ
  bar : ℕ
deriving DecidableEq

/-- The three Math.random() draws one sequencer tick can consume:
the melody gate, the melody scale pick, and the octave pick. -/
structure SeqDraws where
  melodyGate : ℚ
  melodyNote : ℚ
  melodyOct : ℚ
deriving DecidableEq

/-- A note or hit event emitted by one sequencer tick. -/
inductive SeqEvent where
  | bass (freq dur vol : ℚ)
  | melody (freq dur vol : ℚ)
  | kick
  | snare
  | hat
deriving DecidableEq

/-- Result of one firing of the setInterval sequencer callback: the
updated closure state, the events emitted, and whether the callback
cancelled its own interval (the code never does; cancellation happens
only in the unmount cleanup). -/
structure TickResult where
  state : SeqState
  events : List SeqEvent
  cancelled : Bool
deriving DecidableEq

/-- The melody frequency of a tick: a scale pick
scale[floor(random * 7)] times the octave factor (1 when the octave
draw exceeds 0.5, else 2).  An out-of-range index cannot occur for
draws in [0, 1); getD supplies 0 as the junk default. -/
def melodyFreq (d : SeqDraws) : ℚ :=
  scale.getD (Int.toNat ⌊d.melodyNote * 7⌋) 0 * (if d.melodyOct > 0.5 then 1 else 2)

/-- The step/bar advance at the end of one tick: step increments, and
wraps to 0 with a bar increment on reaching 16
(PostSovietTrainView.tsx lines 483-487). -/
def seqAdvance (s : SeqState) : SeqState :=
  if s.step + 1 ≥ 16 then ⟨0, s.bar + 1⟩ else ⟨s.step + 1, s.bar⟩

/-- One firing of the sequencer interval callback
(PostSovietTrainView.tsx lines 443-489).  running is the guard
"ctx.state is running"; a suspended firing is a pure no-op.  Otherwise:
a bass note from the progression indexed by bar mod 4, sustained 8
steps, when step mod 8 is 0; a melody note with probability 0.6
(gate draw above 0.4); a kick on step mod 4 = 0, else a snare on
step mod 4 = 2; a hi-hat on even steps; then the step/bar advance. -/
def sequencerTick (running : Bool) (s : SeqState) (d : SeqDraws) : TickResult :=
  if running = false then ⟨s, [], false⟩
  else
    let bassEvts :=
      if s.step % 8 = 0 then
        [SeqEvent.bass (bassProgression.getD (s.bar % 4) 0) (beatTime * 8) 0.3]
      else []
    let melodyEvts :=
      if d.melodyGate > 0.4 then [SeqEvent.melody (melodyFreq d) beatTime 0.05]
      else []
    let drumEvts :=
      if s.step % 4 = 0 then [SeqEvent.kick]
      else if s.step % 4 = 2 then [SeqEvent.snare]
      else []
    let hatEvts := if s.step % 2 = 0 then [SeqEvent.hat] else []
    ⟨seqAdvance s, bassEvts ++ melodyEvts ++ drumEvts ++ hatEvts, false⟩

/-- Whether an event is a bass note. -/
def isBassEvent : SeqEvent → Bool
  | SeqEvent.bass _ _ _ => true
  | _ => false

/-- Whether a tick emitted a bass note. -/
def hasBass (r : TickResult) : Bool :=
  r.events.any isBassEvent

lemma rAbs_eq (x : ℚ) : rAbs x = |x| := by
  rw [rAbs]
  split_ifs with h
  · rw [abs_of_neg h]
  · rw [abs_of_nonneg (le_of_not_lt h)]

lemma rMin_eq (a b : ℚ) : rMin a b = min a b := by
  rw [rMin, min_def]

lemma rMax_eq (a b : ℚ) : rMax a b = max a b := by
  rw [rMax, max_def]

lemma rAbs_nonneg (x : ℚ) : 0 ≤ rAbs x := by
  rw [rAbs]
  split_ifs with h <;> linarith

lemma findClosest_fst (f : ℚ) : (findClosest f).1 = rMin 100 (nearestDist f) := by
  simp only [findClosest, stations, List.foldl_cons, List.foldl_nil, nearestDist, rMin]
  split_ifs <;> dsimp only <;> linarith

lemma findClosest_isSome (f : ℚ) :
    (findClosest f).2.isSome = true ↔ nearestDist f < 100 := by
  simp only [findClosest, stations, List.foldl_cons, List.foldl_nil, nearestDist, rMin]
  split_ifs <;> simp <;> linarith

lemma signalQuality_eq (f draw : ℚ) :
    signalQuality f draw = qualityAtDist (nearestDist f) draw := by
  have h1 := findClosest_fst f
  by_cases hlt : nearestDist f < 100
  · have hfst : (findClosest f).1 = nearestDist f := by
      rw [h1, rMin, if_neg (not_le.mpr hlt)]
    have hsome : (findClosest f).2.isSome = true := (findClosest_isSome f).mpr hlt
    simp only [signalQuality, qualityAtDist, hfst, hsome, true_and]
  · have hfst : (findClosest f).1 = 100 := by
      rw [h1, rMin, if_pos (le_of_not_lt hlt)]
    have hge : ¬ nearestDist f < 1.5 := by
      push_neg at hlt ⊢
      linarith
    simp only [signalQuality, qualityAtDist, hfst]
    rw [if_neg, if_neg hge]
    intro hcon
    norm_num at hcon

lemma qualityAtDist_far (d draw : ℚ) (h : 1.5 ≤ d) : qualityAtDist d draw = 0 := by
  rw [qualityAtDist, if_neg (not_lt.mpr h)]

/-- Helper: a dial frequency at distance at least 1.5 MHz from both
stations yields signal quality 0, whatever the dropout draw. -/
lemma signalQuality_far (f draw : ℚ) (h : 1.5 ≤ nearestDist f) :
    signalQuality f draw = 0 := by
  rw [signalQuality_eq, qualityAtDist_far _ _ h]

/-- C1: for every dial frequency whose distance to the nearest station
frequency is at least 1.5 MHz, one tuning recomputation yields
signalQuality = 0, musicVolume = 0 and staticVolume = 0.45 (the static
floor (1 - 0) * 0.4 + 0.05), independent of the dropout draw. -/
theorem C1_far_off_station (f dropoutDraw : ℚ) (h : 1.5 ≤ nearestDist f) :
    signalQuality f dropoutDraw = 0 ∧
    musicVol f dropoutDraw = 0 ∧
    staticVol f dropoutDraw = 0.45 := by
  have hq := signalQuality_far f dropoutDraw h
  refine ⟨hq, ?_, ?_⟩
  · rw [musicVol, hq]
  · rw [staticVol, hq]
    norm_num

theorem C1_witness :
    (1.5 : ℚ) ≤ nearestDist 90 ∧
    (signalQuality 90 0.99 = 0 ∧ musicVol 90 0.99 = 0 ∧ staticVol 90 0.99 = 0.45) :=
  ⟨by norm_num [nearestDist, rMin, rAbs],
   C1_far_off_station 90 0.99 (by norm_num [nearestDist, rMin, rAbs])⟩

/-- C2: a dial frequency exactly on a station frequency yields
signalQuality = 1 regardless of the dropout draw (the dropout branch
requires quality below 0.8, so it cannot fire), hence
staticVolume = 0.05 and musicVolume = 1. -/
theorem C2_on_station (f draw : ℚ) (h : f = 96.0 ∨ f = 104.5) :
    signalQuality f draw = 1 ∧
    staticVol f draw = 0.05 ∧
    musicVol f draw = 1 := by
  have hnd : nearestDist f = 0 := by
    rcases h with h | h <;> subst h <;> norm_num [nearestDist, rMin, rAbs]
  have hmax : rMax 0 (1 - (0 : ℚ) / 1.5) = 1 := by norm_num [rMax]
  have hq : signalQuality f draw = 1 := by
    rw [signalQuality_eq, hnd]
    simp only [qualityAtDist, hmax]
    rw [if_pos (by norm_num), if_neg]
    intro hcon
    have := hcon.1
    norm_num at this
  refine ⟨hq, ?_, ?_⟩
  · rw [staticVol, hq]
    norm_num
  · rw [musicVol, hq]

theorem C2_witness :
    ((96.0 : ℚ) = 96.0 ∨ (96.0 : ℚ) = 104.5) ∧
    (signalQuality 96.0 0.95 = 1 ∧ staticVol 96.0 0.95 = 0.05 ∧ musicVol 96.0 0.95 = 1) :=
  ⟨Or.inl rfl, C2_on_station 96.0 0.95 (Or.inl rfl)⟩

lemma qualityAtDist_antitone (d1 d2 draw : ℚ) (hdraw : draw ≤ 0.9)
    (h12 : d1 ≤ d2) (h2 : d2 < 1.5) :
    qualityAtDist d2 draw ≤ qualityAtDist d1 draw := by
  have h1 : d1 < 1.5 := lt_of_le_of_lt h12 h2
  have hnodrop : ∀ q : ℚ, ¬ (q < 0.8 ∧ draw > 0.9) := by
    intro q hc
    exact absurd hc.2 (not_lt.mpr hdraw)
  simp only [qualityAtDist]
  rw [if_pos h2, if_neg (hnodrop _), if_pos h1, if_neg (hnodrop _)]
  have hdiv : d1 / 1.5 ≤ d2 / 1.5 := by gcongr
  rw [rMax, rMax]
  split_ifs <;> linarith

/-- C9: with the dropout branch disabled (any dropout draw at most 0.9,
so that Math.random() > 0.9 is false), signalQuality is monotonically
non-increasing in the distance to the nearest station, for distances
within the 1.5 MHz capture bandwidth. -/
theorem C9_monotone (f1 f2 draw : ℚ) (hdraw : draw ≤ 0.9)
    (h12 : nearestDist f1 ≤ nearestDist f2) (h2 : nearestDist f2 < 1.5) :
    signalQuality f2 draw ≤ signalQuality f1 draw := by
  rw [signalQuality_eq, signalQuality_eq]
  exact qualityAtDist_antitone _ _ _ hdraw h12 h2

theorem C9_witness :
    (0 : ℚ) ≤ 0.9 ∧ nearestDist 96 ≤ nearestDist 96.5 ∧ nearestDist 96.5 < 1.5 ∧
    signalQuality 96.5 0 ≤ signalQuality 96 0 :=
  ⟨by norm_num, by norm_num [nearestDist, rMin, rAbs], by norm_num [nearestDist, rMin, rAbs],
   C9_monotone 96 96.5 0 (by norm_num) (by norm_num [nearestDist, rMin, rAbs])
     (by norm_num [nearestDist, rMin, rAbs])⟩

lemma filterTarget_eq (f s : ℚ) :
    filterTarget f s =
      1000 + rMin 100 (nearestDist f) * 500 * (if s > 0.5 then 1 else -1) := by
  simp only [filterTarget]
  rw [findClosest_fst]

lemma tune_congr (f1 f2 dDraw sDraw : ℚ) (h : nearestDist f1 = nearestDist f2) :
    tune f1 dDraw sDraw = tune f2 dDraw sDraw := by
  have hq : signalQuality f1 dDraw = signalQuality f2 dDraw := by
    rw [signalQuality_eq, signalQuality_eq, h]
  have hf : filterTarget f1 sDraw = filterTarget f2 sDraw := by
    rw [filterTarget_eq, filterTarget_eq, h]
  simp [tune, staticVol, musicVol, hq, hf]

set_option maxHeartbeats 1000000 in
/-- C10: every output of one tuning recomputation (signalQuality,
staticVolume, musicVolume, filter drift target) is a function of the
absolute distance to the nearer of the two station frequencies alone:
two dial frequencies at the same distance get identical results, so the
per-station bandwidth fields (0.8 and 0.4) and the station type have no
effect, and tuning near the 104.5 buzzer station behaves exactly like
tuning near the 96.0 music station at the same offset. -/
theorem C10_distance_only (f1 f2 off dDraw sDraw : ℚ) :
    (nearestDist f1 = nearestDist f2 → tune f1 dDraw sDraw = tune f2 dDraw sDraw) ∧
    (rAbs off ≤ 4 → tune (96.0 + off) dDraw sDraw = tune (104.5 + off) dDraw sDraw) := by
  constructor
  · exact fun h => tune_congr f1 f2 dDraw sDraw h
  · intro hoff
    apply tune_congr
    have h4 : -4 ≤ off ∧ off ≤ 4 := by
      rw [rAbs] at hoff
      split_ifs at hoff with h
      · constructor <;> linarith
      · constructor <;> linarith
    have e1 : (96.0 : ℚ) + off - 96.0 = off := by ring
    have e2 : (96.0 : ℚ) + off - 104.5 = off - 8.5 := by ring
    have e3 : (104.5 : ℚ) + off - 96.0 = off + 8.5 := by ring
    have e4 : (104.5 : ℚ) + off - 104.5 = off := by ring
    obtain ⟨hl, hr⟩ := h4
    simp only [nearestDist, e1, e2, e3, e4, rMin, rAbs]
    split_ifs <;> linarith

theorem C10_witness :
    nearestDist 95 = nearestDist 97 ∧
    tune 95 0.3 0.7 = tune 97 0.3 0.7 ∧
    rAbs 0.5 ≤ 4 ∧
    tune (96.0 + 0.5) 0.3 0.7 = tune (104.5 + 0.5) 0.3 0.7 :=
  ⟨by norm_num [nearestDist, rMin, rAbs],
   (C10_distance_only 95 97 0.5 0.3 0.7).1 (by norm_num [nearestDist, rMin, rAbs]),
   by norm_num [rAbs],
   (C10_distance_only 95 97 0.5 0.3 0.7).2 (by norm_num [rAbs])⟩

/-- C8 counterexample: the dial frequency 120 lies outside the domain
with nearest boundary 108, yet the tuning recomputation does not behave
as if the frequency were 108: the filter drift target differs (8750 Hz
against 2750 Hz with a positive sign draw), because the code never
clamps the dial frequency. -/
theorem C8_counterexample :
    ¬ (tune 120 0 1).filterT = (tune 108 0 1).filterT := by
  simp only [tune]
  rw [filterTarget_eq, filterTarget_eq]
  norm_num [nearestDist, rMin, rAbs]

/-- C8 as amended: for a dial frequency outside [88, 108] the tuning
recomputation (a total function: nothing can throw) yields the same
signalQuality, staticVolume and musicVolume as the nearest domain
boundary would, but the value is never clamped and the filter drift
keeps growing with the unclamped distance (see the counterexample). -/
theorem C8_unclamped (f dDraw : ℚ) :
    (108 < f →
      signalQuality f dDraw = signalQuality 108 dDraw ∧
      staticVol f dDraw = staticVol 108 dDraw ∧
      musicVol f dDraw = musicVol 108 dDraw) ∧
    (f < 88 →
      signalQuality f dDraw = signalQuality 88 dDraw ∧
      staticVol f dDraw = staticVol 88 dDraw ∧
      musicVol f dDraw = musicVol 88 dDraw) := by
  constructor
  · intro hf
    have hnd : (1.5 : ℚ) ≤ nearestDist f := by
      simp only [nearestDist, rMin, rAbs]
      split_ifs <;> linarith
    have hb : (1.5 : ℚ) ≤ nearestDist 108 := by norm_num [nearestDist, rMin, rAbs]
    have hq1 := signalQuality_far f dDraw hnd
    have hq2 := signalQuality_far 108 dDraw hb
    exact ⟨by rw [hq1, hq2], by rw [staticVol, staticVol, hq1, hq2],
      by rw [musicVol, musicVol, hq1, hq2]⟩
  · intro hf
    have hnd : (1.5 : ℚ) ≤ nearestDist f := by
      simp only [nearestDist, rMin, rAbs]
      split_ifs <;> linarith
    have hb : (1.5 : ℚ) ≤ nearestDist 88 := by norm_num [nearestDist, rMin, rAbs]
    have hq1 := signalQuality_far f dDraw hnd
    have hq2 := signalQuality_far 88 dDraw hb
    exact ⟨by rw [hq1, hq2], by rw [staticVol, staticVol, hq1, hq2],
      by rw [musicVol, musicVol, hq1, hq2]⟩

theorem C8_witness :
    (108 : ℚ) < 120 ∧
    (signalQuality 120 0.2 = signalQuality 108 0.2 ∧
     staticVol 120 0.2 = staticVol 108 0.2 ∧
     musicVol 120 0.2 = musicVol 108 0.2) :=
  ⟨by norm_num, (C8_unclamped 120 0.2).1 (by norm_num)⟩

/-- C4: on every weather change the rain-bus gain is driven by a
smoothed setTargetAtTime automation with a 1.5 s time constant (never a
direct value write), toward 0.35 for rain, 0.05 for snow, and 0 for
every other weather. -/
theorem C4_rain_gain (w : Weather) (now : ℚ) :
    (w = Weather.rain → rainGainUpdate w now = ParamEvent.setTargetAtTime 0.35 now 1.5) ∧
    (w = Weather.snow → rainGainUpdate w now = ParamEvent.setTargetAtTime 0.05 now 1.5) ∧
    (w ≠ Weather.rain → w ≠ Weather.snow →
      rainGainUpdate w now = ParamEvent.setTargetAtTime 0 now 1.5) ∧
    (∀ v : ℚ, rainGainUpdate w now ≠ ParamEvent.setValue v) := by
  refine ⟨?_, ?_, ?_, ?_⟩ <;> cases w <;> simp [rainGainUpdate, rainGainTarget]

theorem C4_witness :
    rainGainUpdate Weather.rain 0 = ParamEvent.setTargetAtTime 0.35 0 1.5 :=
  (C4_rain_gain Weather.rain 0).1 rfl

/-- C3: the rhythm generator of src/unnamed/part_000.  At speed 60
(speedRatio 1.0) the two hits of a firing pair are 0.14 s apart; at
speed 120 (speedRatio 2.0) they are 0.07 s apart (offset
0.14 / speedRatio); and whenever speedRatio = speed / 60 falls below
0.1 the firing emits no hit pair and reschedules itself at the fixed
1000 ms slow-poll delay. -/
theorem C3_clack_cadence (t jitter s : ℚ) :
    clackOffset (playClack true 60 jitter t) = some 0.14 ∧
    clackOffset (playClack true 120 jitter t) = some 0.07 ∧
    (s / 60 < 0.1 → playClack true s jitter t = ⟨[], some 1000⟩) := by
  refine ⟨?_, ?_, ?_⟩
  · norm_num [playClack, clackOffset, createHit]
  · norm_num [playClack, clackOffset, createHit]
  · intro h
    simp only [playClack]
    rw [if_neg (by simp), if_pos h]

theorem C3_witness :
    (3 : ℚ) / 60 < 0.1 ∧ playClack true 3 0 0 = ⟨[], some 1000⟩ :=
  ⟨by norm_num, (C3_clack_cadence 0 0 3).2.2 (by norm_num)⟩

/-- C6 counterexample: a rhythm-generator firing while the render
process is not running does not install its next setTimeout (next =
none): the self-rescheduling chain is broken by a suspended firing,
contrary to the claim. -/
theorem C6_counterexample : (playClack false 60 0 0).next = none := rfl

/-- C6 as amended: a sequencer firing while the render process is not
running is a pure no-op that leaves step and bar unchanged, emits no
voices and never cancels its own interval, so the sequencer keeps
ticking; but a rhythm-generator firing while suspended returns without
rescheduling (no hits and no next timeout), ending its
self-rescheduling chain until the audioEnabled effect restarts it. -/
theorem C6_suspended (s : SeqState) (d : SeqDraws) (speed jitter t : ℚ) :
    sequencerTick false s d = ⟨s, [], false⟩ ∧
    (playClack false speed jitter t).hits = [] ∧
    (playClack false speed jitter t).next = none :=
  ⟨rfl, rfl, rfl⟩

@[simp] lemma getLast?_cons_cons (a b : GainEvent) (l : List GainEvent) :
    (a :: b :: l).getLast? = (b :: l).getLast? := rfl

@[simp] lemma getLast?_singleton (a : GainEvent) : [a].getLast? = some a := rfl

/-- C5 counterexample: the kick-drum voice violates the claimed
envelope discipline at start time 0: its gain envelope starts at 0.4,
not at 0 (and the snare/hi-hat noise voices have no envelope at all,
see the amended theorem). -/
theorem C5_counterexample : goodEnvelope (kickVoice 0) = false := by
  simp [goodEnvelope, startsAtZero, kickVoice]
  norm_num

/-- C5 as amended: the bass/melody voices of playNote and the clack
hits of createHit do satisfy the claimed envelope discipline (gain
starts at exactly 0, every scheduled gain value is non-negative, and
the final exponential release targets a strictly positive floor
strictly before the scheduled source stop); but the kick voice starts
its envelope at 0.4, and the snare/hi-hat noise voices of playNoise
use a constant 0.15 gain with no envelope and no scheduled stop. -/
theorem C5_envelopes (t dur vol time hv : ℚ) (hvol : 0 ≤ vol) (hhit : 0 ≤ hv) :
    goodEnvelope (playNote t dur vol) = true ∧
    goodEnvelope (createHit time hv) = true ∧
    goodEnvelope (kickVoice t) = false ∧
    goodEnvelope (playNoise t dur) = false := by
  refine ⟨?_, ?_, ?_, ?_⟩
  · simp [goodEnvelope, startsAtZero, nonnegTargets, releaseBeforeStop, playNote, eventValue]
    refine ⟨⟨hvol, by norm_num⟩, by norm_num, by linarith⟩
  · simp [goodEnvelope, startsAtZero, nonnegTargets, releaseBeforeStop, createHit, eventValue]
    refine ⟨⟨hhit, by norm_num⟩, by norm_num, by linarith⟩
  · simp [goodEnvelope, startsAtZero, kickVoice]
    norm_num
  · simp [goodEnvelope, startsAtZero, playNoise]

theorem C5_witness :
    (0 : ℚ) ≤ 0.3 ∧ (0 : ℚ) ≤ 0.4 ∧
    (goodEnvelope (playNote 2 4.8 0.3) = true ∧
     goodEnvelope (createHit 2 0.4) = true ∧
     goodEnvelope (kickVoice 2) = false ∧
     goodEnvelope (playNoise 2 0.1) = false) :=
  ⟨by norm_num, by norm_num, C5_envelopes 2 4.8 0.3 2 0.4 (by norm_num) (by norm_num)⟩

set_option maxHeartbeats 2000000 in
lemma seqAdvance_iterate (k b : ℕ) (h : k < 16) :
    seqAdvance^[16] ⟨k, b⟩ = ⟨k, b + 1⟩ := by
  interval_cases k <;> simp [Function.iterate_succ_apply, seqAdvance]

/-- C7: in every running sequencer tick a bass note (the progression
entry indexed by bar mod 4, sustained 8 steps: duration beatTime * 8)
is emitted exactly when step mod 8 = 0; the step stays in [0, 16); and
sixteen consecutive state advances increment bar exactly once while
returning step to its starting value. -/
theorem C7_sequencer (s : SeqState) (d : SeqDraws) (h : s.step < 16) :
    (hasBass (sequencerTick true s d) = true ↔ s.step % 8 = 0) ∧
    (s.step % 8 = 0 →
      SeqEvent.bass (bassProgression.getD (s.bar % 4) 0) (beatTime * 8) 0.3 ∈
        (sequencerTick true s d).events) ∧
    (sequencerTick true s d).state.step < 16 ∧
    seqAdvance^[16] s = ⟨s.step, s.bar + 1⟩ := by
  obtain ⟨st, b⟩ := s
  refine ⟨?_, ?_, ?_, seqAdvance_iterate st b h⟩
  · by_cases h8 : st % 8 = 0
    · simp [sequencerTick, hasBass, h8, isBassEvent]
    · simp only [sequencerTick, hasBass]
      split_ifs <;> simp_all [isBassEvent]
  · intro h8
    simp [sequencerTick, h8]
  · simp only [sequencerTick]
    rw [if_neg (by simp)]
    simp only [seqAdvance]
    split_ifs <;> simp <;> omega

theorem C7_witness :
    (0 : ℕ) < 16 ∧
    ((hasBass (sequencerTick true ⟨0, 0⟩ ⟨0.5, 0, 0.6⟩) = true ↔ (0 : ℕ) % 8 = 0) ∧
     ((0 : ℕ) % 8 = 0 →
       SeqEvent.bass (bassProgression.getD (0 % 4) 0) (beatTime * 8) 0.3 ∈
         (sequencerTick true ⟨0, 0⟩ ⟨0.5, 0, 0.6⟩).events) ∧
     (sequencerTick true ⟨0, 0⟩ ⟨0.5, 0, 0.6⟩).state.step < 16 ∧
     seqAdvance^[16] (⟨0, 0⟩ : SeqState) = ⟨0, 0 + 1⟩) :=
  ⟨by norm_num, C7_sequencer ⟨0, 0⟩ ⟨0.5, 0, 0.6⟩ (by norm_num)⟩

end SovietRail
